import Mathlib

/-!
Verification of the StoryTeller playback core
(`static/socket_handlers.py` plus the branch-invariant checks in
`routes.py`).

The embedding mirrors the Python source: dictionaries become structures,
the module-level `playback` / `last_shown_inject` / `_timer_id` globals
become fields of an explicit `AppState`, socket emissions become an
explicit list of `Msg` values returned by each operation, and every
Python function of the playback core becomes a Lean function of the same
name.  Python truthiness of strings and option values is modelled
explicitly where the source relies on it.
-/

/-- A narrative beat ("inject"/"block") as stored in `app_data`. -/
structure Inject where
  id : String
  heading : String
  text : String
  image : Option String
  gm_notes : String
  duration : Int
  day : Int
  time : String
  target_player_types : List String
deriving DecidableEq, Repr

/-- A side-sequence attached to a parent inject. -/
structure Branch where
  id : String
  name : String
  parent_inject_id : Option String
  auto_trigger : Bool
  merge_to_inject_id : Option String
  injects : List Inject
  current_inject : Nat
deriving DecidableEq, Repr

/-- The active storyline: main sequence, cursor, branches, live set. -/
structure Storyline where
  blocks : List Inject
  current_block : Nat
  branches : List Branch
  active_branches : List String
deriving DecidableEq, Repr

/-- The module-level `playback` dictionary. -/
structure Playback where
  playing : Bool
  remaining : Int
  current_source : String
deriving DecidableEq, Repr

/-- Whole mutable state of the playback core: the active storyline (the
`get_storyline` lookup collapsed to an option), the `playback` global,
the `last_shown_inject` map keyed by room name, the configured player
types, and the `_timer_id` generation counter. -/
structure AppState where
  storyline : Option Storyline
  playback : Playback
  last_shown : List (String × Option Inject)
  player_types : List String
  timer_id : Nat
deriving DecidableEq, Repr

/-- The sanitized view sent to players (`sanitize_block_for_player`). -/
structure SafeInject where
  id : String
  heading : String
  text : String
  image : Option String
  duration : Int
  day : Int
  time : String
deriving DecidableEq, Repr

/-- An emitted socket message, reduced to the parts the spec talks
about: which room it addresses and what beat payload it carries. -/
inductive Msg where
  | emptyBlockUpdate : Msg
  | gmBlockUpdate : Option Inject → Nat → String → Msg
  | gmStateUpdate : Nat → List String → String → Msg
  | playerBlockUpdate : String → Option SafeInject → Nat → String → Msg
  | playbackUpdate : String → Bool → Int → Option Int → Msg
  | playbackError : String → Msg
deriving DecidableEq, Repr

/-- Python truthiness of a string (`if branch_id:`). -/
def truthyS (s : String) : Bool := !s.isEmpty

/-- Python truthiness of an optional string. -/
def truthyOS : Option String → Bool
  | none => false
  | some s => !s.isEmpty

/-- `next((b for b in branches if b['id'] == bid), None)`. -/
def findBranch (bs : List Branch) (bid : String) : Option Branch :=
  bs.find? (fun b => b.id == bid)

/-- Lookup in the `last_shown_inject` dict (missing key gives `None`,
as does a stored `None`). -/
def lookupLS : List (String × Option Inject) → String → Option Inject
  | [], _ => none
  | p :: rest, k => if p.1 == k then p.2 else lookupLS rest k

/-- Dict assignment `last_shown_inject[room] = v`. -/
def setLS : List (String × Option Inject) → String → Option Inject → List (String × Option Inject)
  | [], k, v => [(k, v)]
  | p :: rest, k, v => if p.1 == k then (k, v) :: rest else p :: setLS rest k v

/-- The `(inject, source_type, source_name)` triple returned by
`get_current_inject`. -/
structure InjectView where
  inject : Option Inject
  source_type : String
  source_name : Option String
deriving DecidableEq, Repr

/-- Core of `get_current_inject`: reads the storyline and the playback
dict, may rewrite `playback['current_source']` in its fallback paths. -/
def get_current_inject_core (sto : Option Storyline) (pb : Playback) : InjectView × Playback :=
  match sto with
  | none => (⟨none, "main", none⟩, pb)
  | some st =>
    let cs := pb.current_source
    let fromBranch : Option (Inject × String) :=
      if cs = "main" then none
      else
        match findBranch st.branches cs with
        | some b => (b.injects[b.current_inject]?).map (fun i => (i, b.name))
        | none => none
    match fromBranch with
    | some p => (⟨some p.1, "branch", some p.2⟩, pb)
    | none =>
      match (if cs = "main" then st.blocks[st.current_block]? else none) with
      | some i => (⟨some i, "main", none⟩, pb)
      | none =>
        match st.active_branches.findSome? (fun bid =>
            match findBranch st.branches bid with
            | some b => (b.injects[b.current_inject]?).map (fun i => (bid, i, b.name))
            | none => none) with
        | some t => (⟨some t.2.1, "branch", some t.2.2⟩, { pb with current_source := t.1 })
        | none =>
          let pb1 := { pb with current_source := "main" }
          match st.blocks[st.current_block]? with
          | some i => (⟨some i, "main", none⟩, pb1)
          | none => (⟨none, "main", none⟩, pb1)

/-- `get_current_inject` on the whole state. -/
def get_current_inject (s : AppState) : InjectView × AppState :=
  let r := get_current_inject_core s.storyline s.playback
  (r.1, { s with playback := r.2 })

/-- `should_show_inject_to_player_type`. -/
def should_show_inject_to_player_type (inject : Option Inject) (player_type : Option String) : Bool :=
  match inject with
  | none => true
  | some i =>
    if i.target_player_types.isEmpty then true
    else if !(truthyOS player_type) then true
    else i.target_player_types.contains (player_type.getD "")

/-- `sanitize_block_for_player`. -/
def sanitize_block_for_player : Option Inject → Option SafeInject
  | none => none
  | some b => some ⟨b.id, b.heading, b.text, b.image, b.duration, b.day, b.time⟩

/-- The list of player rooms used by `broadcast_current_block`. -/
def playerRooms (pts : List String) : List String :=
  "player_generic" :: pts.map (fun pt => "player_" ++ pt)

/-- Player type extracted from a room name inside the broadcast loop. -/
def roomPlayerType (room : String) : Option String :=
  if room == "player_generic" then none else some (room.drop 7)

/-- The per-player-room loop of `broadcast_current_block`: updates
`last_shown_inject` and emits `block_update` only on an id change. -/
def broadcastRoomsFold (ci : Option Inject) (main_idx : Nat) (stype : String) :
    List String → List (String × Option Inject) → List (String × Option Inject) × List Msg
  | [], ls => (ls, [])
  | room :: rest, ls =>
    let pt := roomPlayerType room
    if should_show_inject_to_player_type ci pt then
      let previous := lookupLS ls room
      let ls1 := setLS ls room ci
      let r := broadcastRoomsFold ci main_idx stype rest ls1
      if previous.map Inject.id ≠ ci.map Inject.id then
        (r.1, Msg.playerBlockUpdate room (sanitize_block_for_player ci) main_idx stype :: r.2)
      else r
    else broadcastRoomsFold ci main_idx stype rest ls

/-- `broadcast_current_block`. -/
def broadcast_current_block (s : AppState) : AppState × List Msg :=
  match s.storyline with
  | none => (s, [Msg.emptyBlockUpdate])
  | some st =>
    let v := get_current_inject s
    let gm1 := Msg.gmBlockUpdate v.1.inject st.current_block v.1.source_type
    let gm2 := Msg.gmStateUpdate st.current_block st.active_branches v.1.source_type
    let r := broadcastRoomsFold v.1.inject st.current_block v.1.source_type
      (playerRooms v.2.player_types) v.2.last_shown
    ({ v.2 with last_shown := r.1 }, gm1 :: gm2 :: r.2)

/-- `broadcast_state_to_gm_only`. -/
def broadcast_state_to_gm_only (s : AppState) : AppState × List Msg :=
  match s.storyline with
  | none => (s, [])
  | some st =>
    let v := get_current_inject s
    (v.2, [Msg.gmBlockUpdate v.1.inject st.current_block v.1.source_type,
           Msg.gmStateUpdate st.current_block st.active_branches v.1.source_type])

/-- The loop body of `check_auto_trigger_branches`: walks the branch
list, appending qualifying branch ids to the live set and resetting
their cursors. -/
def autoTriggerFold (cbid : String) :
    List Branch → List String → List Branch × List String
  | [], active => ([], active)
  | b :: rest, active =>
    if b.auto_trigger && (b.parent_inject_id == some cbid)
        && !(active.contains b.id) && !b.injects.isEmpty then
      let r := autoTriggerFold cbid rest (active ++ [b.id])
      ({ b with current_inject := 0 } :: r.1, r.2)
    else
      let r := autoTriggerFold cbid rest active
      (b :: r.1, r.2)

/-- `check_auto_trigger_branches`. -/
def check_auto_trigger_branches (s : AppState) : AppState :=
  match s.storyline with
  | none => s
  | some st =>
    match st.blocks[st.current_block]? with
    | none => s
    | some blk =>
      let r := autoTriggerFold blk.id st.branches st.active_branches
      { s with storyline := some { st with branches := r.1, active_branches := r.2 } }

/-- Mutation of the first branch with the given id
(`branch['current_inject'] = v` on the object found by `next`). -/
def setBranchCursorFirst : List Branch → String → Nat → List Branch
  | [], _, _ => []
  | b :: rest, bid, v =>
    if b.id == bid then { b with current_inject := v } :: rest
    else b :: setBranchCursorFirst rest bid v

/-- Condition for a live branch id to be "waiting" on the current main
inject inside `advance_to_next`. -/
def pendingOnBlock (branches : List Branch) (cbid : Option String) (bid : String) : Bool :=
  match findBranch branches bid with
  | some b => decide (b.current_inject < b.injects.length) && (b.parent_inject_id == cbid)
  | none => false

/-- `advance_main`. -/
def advance_main (s : AppState) : Bool × AppState × List Msg :=
  match s.storyline with
  | none => (false, s, [])
  | some st =>
    if st.current_block < st.blocks.length - 1 then
      let s1 : AppState := { s with
        storyline := some { st with current_block := st.current_block + 1 },
        playback := { s.playback with current_source := "main" } }
      (true, broadcast_current_block (check_auto_trigger_branches s1))
    else (false, s, [])

/-- `advance_to_next`: the central transition of the traversal engine. -/
def advance_to_next (s : AppState) : Bool × AppState × List Msg :=
  match s.storyline with
  | none => (false, s, [])
  | some st =>
    let cs := s.playback.current_source
    if cs = "main" then
      let cbid := (st.blocks[st.current_block]?).map Inject.id
      match st.active_branches.find? (pendingOnBlock st.branches cbid) with
      | some bid =>
        (true, broadcast_current_block
          { s with playback := { s.playback with current_source := bid } })
      | none => advance_main s
    else
      if st.active_branches.contains cs then
        match findBranch st.branches cs with
        | some b =>
          if b.current_inject < b.injects.length - 1 then
            (true, broadcast_current_block
              { s with storyline :=
                (some { st with branches := setBranchCursorFirst st.branches cs (b.current_inject + 1) }) })
          else
            let active1 := st.active_branches.erase cs
            let mergeIdx : Option Nat :=
              if truthyOS b.merge_to_inject_id then
                st.blocks.findIdx? (fun blk => (some blk.id : Option String) == b.merge_to_inject_id)
              else none
            match mergeIdx with
            | some i =>
              (true, broadcast_current_block (check_auto_trigger_branches
                { s with
                  storyline := some { st with active_branches := active1, current_block := i },
                  playback := { s.playback with current_source := "main" } }))
            | none =>
              let s1 : AppState := { s with storyline := some { st with active_branches := active1 } }
              let cbid := (st.blocks[st.current_block]?).map Inject.id
              match active1.find? (pendingOnBlock st.branches cbid) with
              | some bid =>
                (true, broadcast_current_block
                  { s1 with playback := { s1.playback with current_source := bid } })
              | none =>
                advance_main { s1 with playback := { s1.playback with current_source := "main" } }
        | none => advance_main s
      else
        advance_main { s with playback := { s.playback with current_source := "main" } }

/-- `get_current_inject_duration` (the `or 0` coercion is the identity
on integers, since `0 or 0` is `0`). -/
def get_current_inject_duration (s : AppState) : Int × AppState :=
  let v := get_current_inject s
  match v.1.inject with
  | some i => (i.duration, v.2)
  | none => (0, v.2)

/-- Result of `start_inject_timer`: the new state, the emitted
`playback_update`, and the generation captured by the background task
it spawned (if any). -/
structure TimerStart where
  state : AppState
  msgs : List Msg
  task : Option Nat
deriving DecidableEq, Repr

/-- `start_inject_timer`: bumps the `_timer_id` generation (invalidating
every running timer), resets `remaining`, publishes, and spawns the
countdown task when the beat is timed and playback is on. -/
def start_inject_timer (s : AppState) : TimerStart :=
  let d := get_current_inject_duration s
  let s1 := d.2
  let s2 : AppState := { s1 with
    playback := { s1.playback with remaining := d.1 },
    timer_id := s1.timer_id + 1 }
  let msg := Msg.playbackUpdate "gm" s2.playback.playing s2.playback.remaining (some d.1)
  if d.1 > 0 && s2.playback.playing then ⟨s2, [msg], some s2.timer_id⟩
  else ⟨s2, [msg], none⟩

/-- One post-sleep iteration of the `inject_timer_loop` body, for a task
that captured generation `tid`.  Returns the new state, the emitted
messages, and whether this tick successfully advanced playback. -/
def inject_timer_tick (tid : Nat) (s : AppState) : AppState × List Msg × Bool :=
  if tid ≠ s.timer_id then (s, [], false)
  else if s.playback.playing = false then (s, [], false)
  else
    let s1 : AppState := { s with playback := { s.playback with remaining := s.playback.remaining - 1 } }
    let m1 := Msg.playbackUpdate "gm" s1.playback.playing s1.playback.remaining none
    if s1.playback.remaining ≤ 0 && s1.playback.playing then
      if tid ≠ s1.timer_id then (s1, [m1], false)
      else
        let r := advance_to_next s1
        if r.1 then
          let ts := start_inject_timer r.2.1
          (ts.state, m1 :: r.2.2 ++ ts.msgs, true)
        else
          let s3 : AppState := { r.2.1 with playback := { r.2.1.playback with playing := false } }
          (s3, m1 :: r.2.2 ++ [Msg.playbackUpdate "gm" false 0 none], false)
    else (s1, [m1], false)

/-- The `next_block` handler (after the auth gate). -/
def handle_next_block (s : AppState) : AppState × List Msg :=
  let r := advance_to_next s
  if r.1 then
    if r.2.1.playback.playing then
      let ts := start_inject_timer r.2.1
      (ts.state, r.2.2 ++ ts.msgs)
    else r.2
  else r.2

/-- Rearm step shared by the jump-style handlers (`if playback['playing']:
start_inject_timer()` after the broadcast). -/
def rearmIfPlaying (p : AppState × List Msg) : AppState × List Msg :=
  if p.1.playback.playing then
    let ts := start_inject_timer p.1
    (ts.state, p.2 ++ ts.msgs)
  else p

/-- The `previous_block` handler. -/
def handle_previous_block (s : AppState) : AppState × List Msg :=
  let s1 : AppState :=
    match s.storyline with
    | some st =>
      if 0 < st.current_block then
        { s with storyline := (some { st with current_block := st.current_block - 1 }),
                 playback := { s.playback with current_source := "main" } }
      else s
    | none => s
  rearmIfPlaying (broadcast_current_block s1)

/-- The `go_to_block` handler (`jumpToMainIndex`). -/
def handle_go_to_block (s : AppState) (index : Int) : AppState × List Msg :=
  let s1 : AppState :=
    match s.storyline with
    | some st =>
      if 0 ≤ index ∧ index < st.blocks.length then
        let i := index.toNat
        let st1 := { st with current_block := i }
        let st2 :=
          if i = 0 then
            { st1 with active_branches := [],
                       branches := st1.branches.map (fun b => { b with current_inject := 0 }) }
          else st1
        check_auto_trigger_branches
          { s with storyline := some st2,
                   playback := { s.playback with current_source := "main" } }
      else s
    | none => s
  rearmIfPlaying (broadcast_current_block s1)

/-- The `go_to_branch_inject` handler (`jumpToBranchBeat`). -/
def handle_go_to_branch_inject (s : AppState) (branch_id : Option String) (inject_index : Int) :
    AppState × List Msg :=
  let s1 : AppState :=
    match s.storyline with
    | some st =>
      match st.branches.find? (fun b => (some b.id : Option String) == branch_id) with
      | some b =>
        if 0 ≤ inject_index ∧ inject_index < b.injects.length then
          let active' :=
            if st.active_branches.contains b.id then st.active_branches
            else st.active_branches ++ [b.id]
          { s with
            storyline := (some { st with
              branches := setBranchCursorFirst st.branches b.id inject_index.toNat,
              active_branches := active' }),
            playback := { s.playback with current_source := b.id } }
        else s
      | none => s
    | none => s
  rearmIfPlaying (broadcast_current_block s1)

/-- The `toggle_playback` handler (the `active_storyline` truthiness
check collapsed to presence of the active storyline). -/
def handle_toggle_playback (s : AppState) (playing : Bool) : AppState × List Msg :=
  match s.storyline with
  | none => (s, [Msg.playbackError "gm"])
  | some _ =>
    let s1 : AppState := { s with playback := { s.playback with playing := playing } }
    if playing then
      let ts := start_inject_timer (check_auto_trigger_branches s1)
      (ts.state, ts.msgs)
    else
      let s2 : AppState := { s1 with playback := { s1.playback with remaining := 0 } }
      (s2, [Msg.playbackUpdate "gm" false 0 none])

/-- The `activate_branch` handler. -/
def handle_activate_branch (s : AppState) (branch_id : Option String) : AppState × List Msg :=
  let s1 : AppState :=
    match s.storyline, branch_id with
    | some st, some bid =>
      if truthyS bid then
        match findBranch st.branches bid with
        | some _ =>
          if st.active_branches.contains bid then s
          else
            { s with storyline := (some { st with
                active_branches := st.active_branches ++ [bid],
                branches := setBranchCursorFirst st.branches bid 0 }) }
        | none => s
      else s
    | _, _ => s
  broadcast_state_to_gm_only s1

/-- The `deactivate_branch` handler (broadcasts only when it actually
removed a live branch). -/
def handle_deactivate_branch (s : AppState) (branch_id : Option String) : AppState × List Msg :=
  match s.storyline, branch_id with
  | some st, some bid =>
    if truthyS bid && st.active_branches.contains bid then
      broadcast_state_to_gm_only
        { s with storyline := (some { st with active_branches := st.active_branches.erase bid }) }
    else (s, [])
  | _, _ => (s, [])

/-- The moderator command surface of the playback core. -/
inductive Command where
  | nextBlock : Command
  | previousBlock : Command
  | goToBlock : Int → Command
  | goToBranchInject : Option String → Int → Command
  | togglePlayback : Bool → Command
  | activateBranch : Option String → Command
  | deactivateBranch : Option String → Command
deriving DecidableEq, Repr

/-- Dispatch of a playback command to its handler. -/
def applyCommand : Command → AppState → AppState × List Msg
  | Command.nextBlock, s => handle_next_block s
  | Command.previousBlock, s => handle_previous_block s
  | Command.goToBlock i, s => handle_go_to_block s i
  | Command.goToBranchInject b i, s => handle_go_to_branch_inject s b i
  | Command.togglePlayback p, s => handle_toggle_playback s p
  | Command.activateBranch b, s => handle_activate_branch s b
  | Command.deactivateBranch b, s => handle_deactivate_branch s b

/-- The audience room an emit names in its `room=` argument, if any.
The no-storyline `block_update` (`Msg.emptyBlockUpdate`) names no room
— the transport delivers it to every connected client; `reachesRoom`
below accounts for that delivery. -/
def msgRoom : Msg → Option String
  | Msg.playerBlockUpdate room _ _ _ => some room
  | _ => none

/-- Messages whose `room=` argument names the given audience room. -/
def msgsTo (msgs : List Msg) (room : String) : List Msg :=
  msgs.filter (fun m => msgRoom m == some room)

/-- Whether an emitted message is delivered to a given audience room:
an emit with no `room=` argument (the empty-state `block_update`) is
broadcast to every connected client, so it reaches every audience room;
a player `block_update` reaches exactly its named room; emits addressed
to the moderator room reach no audience room. -/
def reachesRoom : Msg → String → Bool
  | Msg.emptyBlockUpdate, _ => true
  | Msg.playerBlockUpdate r _ _ _, room => r == room
  | _, _ => false

/-! ## Basic lemmas about the embedding -/

theorem get_current_inject_storyline (s : AppState) :
    (get_current_inject s).2.storyline = s.storyline := rfl

theorem get_current_inject_last_shown (s : AppState) :
    (get_current_inject s).2.last_shown = s.last_shown := rfl

theorem get_current_inject_player_types (s : AppState) :
    (get_current_inject s).2.player_types = s.player_types := rfl

theorem get_current_inject_timer_id (s : AppState) :
    (get_current_inject s).2.timer_id = s.timer_id := rfl

theorem broadcast_storyline (s : AppState) :
    (broadcast_current_block s).1.storyline = s.storyline := by
  unfold broadcast_current_block
  cases h : s.storyline <;> simp [get_current_inject, h]

theorem check_auto_playback (s : AppState) :
    (check_auto_trigger_branches s).playback = s.playback := by
  unfold check_auto_trigger_branches
  cases h : s.storyline
  · rfl
  · rename_i st
    cases hb : st.blocks[st.current_block]? <;> simp [h, hb]

theorem check_auto_current_block (s : AppState) :
    (check_auto_trigger_branches s).storyline.map Storyline.current_block
      = s.storyline.map Storyline.current_block := by
  unfold check_auto_trigger_branches
  cases h : s.storyline
  · simp [h]
  · rename_i st
    cases hb : st.blocks[st.current_block]? <;> simp [h, hb]

theorem check_auto_blocks (s : AppState) :
    (check_auto_trigger_branches s).storyline.map Storyline.blocks
      = s.storyline.map Storyline.blocks := by
  unfold check_auto_trigger_branches
  cases h : s.storyline
  · simp [h]
  · rename_i st
    cases hb : st.blocks[st.current_block]? <;> simp [h, hb]

/-- `get_current_inject` with focus on main and the cursor in range
returns the current main beat and leaves the state untouched. -/
theorem get_current_main (s : AppState) (st : Storyline) (i : Inject)
    (hst : s.storyline = some st)
    (hfocus : s.playback.current_source = "main")
    (hblk : st.blocks[st.current_block]? = some i) :
    get_current_inject s = (⟨some i, "main", none⟩, s) := by
  unfold get_current_inject get_current_inject_core
  rw [hst]
  simp [hfocus, hblk]
  rw [← hst]

/-! ## Concrete fixtures used by the instance theorems -/

/-- Fixture beat with a given id and no targeting. -/
def fixInject (i : String) : Inject := ⟨i, "", "", none, "", 0, 0, "", []⟩

def fixA : Inject := fixInject "A"

def fixB : Inject := fixInject "B"

def fixC : Inject := fixInject "C"

def fixR1 : Inject := fixInject "R1"

def fixR2 : Inject := fixInject "R2"

/-- Fixture branch on parent `A`, auto-trigger, merging back to `C`. -/
def fixR : Branch := ⟨"R", "Side story", some "A", true, some "C", [fixR1, fixR2], 0⟩

/-- Storyline `[A, B, C]` at `A` with branch `R` live. -/
def fixState : AppState :=
  ⟨some ⟨[fixA, fixB, fixC], 0, [fixR], ["R"]⟩, ⟨false, 0, "main"⟩, [], [], 0⟩

/-- Same storyline but with `R` not yet live. -/
def fixStateNoLive : AppState :=
  ⟨some ⟨[fixA, fixB, fixC], 0, [fixR], []⟩, ⟨false, 0, "main"⟩, [], [], 0⟩

/-! ## C3: detection never changes what is shown -/

/-- C3: immediately after auto-trigger detection runs while the main
beat is showing, `get_current_inject` still returns that main beat and
leaves the state untouched, and detection itself never changes the
playback focus; only a later `advance_to_next` switches focus to the
added branch (so the main beat is shown at least once first). -/
theorem auto_trigger_keeps_main_visible (s : AppState) (st : Storyline) (i : Inject)
    (hst : s.storyline = some st)
    (hfocus : s.playback.current_source = "main")
    (hblk : st.blocks[st.current_block]? = some i) :
    (check_auto_trigger_branches s).playback = s.playback ∧
    get_current_inject (check_auto_trigger_branches s)
      = (⟨some i, "main", none⟩, check_auto_trigger_branches s) := by
  have hpb := check_auto_playback s
  refine ⟨hpb, ?_⟩
  cases hs' : (check_auto_trigger_branches s).storyline with
  | none =>
    exfalso
    have hb := check_auto_blocks s
    rw [hs', hst] at hb
    simp at hb
  | some st' =>
    have hb := check_auto_blocks s
    have hc := check_auto_current_block s
    rw [hs', hst] at hb hc
    simp at hb hc
    apply get_current_main _ st' i hs'
    · rw [hpb, hfocus]
    · rw [hb, hc]; exact hblk

/-- Witness for C3: at the fixture state detection really adds branch
`R` (cursor reset), yet the main beat `A` is still the one shown. -/
theorem auto_trigger_keeps_main_visible_instance :
    (check_auto_trigger_branches fixStateNoLive).storyline.map Storyline.active_branches
        = some ["R"] ∧
    (check_auto_trigger_branches fixStateNoLive).playback = fixStateNoLive.playback ∧
    get_current_inject (check_auto_trigger_branches fixStateNoLive)
      = (⟨some fixA, "main", none⟩, check_auto_trigger_branches fixStateNoLive) :=
  ⟨by decide, auto_trigger_keeps_main_visible fixStateNoLive _ fixA rfl rfl (by decide)⟩

/-! ## C4: pure main-sequence traversal -/

/-- C4: with no branches defined and focus on main, `advance_to_next`
increments the cursor by exactly one and succeeds while below the last
index, and fails leaving the whole state (and the wire) untouched once
the cursor is not below the last index. -/
theorem advance_without_branches (s : AppState) (st : Storyline)
    (hst : s.storyline = some st)
    (hbr : st.branches = [])
    (hfocus : s.playback.current_source = "main") :
    (st.current_block < st.blocks.length - 1 →
      (advance_to_next s).1 = true ∧
      (advance_to_next s).2.1.storyline.map Storyline.current_block
        = some (st.current_block + 1)) ∧
    (¬ st.current_block < st.blocks.length - 1 →
      advance_to_next s = (false, s, [])) := by
  have hfind : st.active_branches.find?
      (pendingOnBlock st.branches ((st.blocks[st.current_block]?).map Inject.id)) = none := by
    apply List.find?_eq_none.mpr
    intro bid _
    simp [pendingOnBlock, findBranch, hbr]
  have hadv : advance_to_next s = advance_main s := by
    unfold advance_to_next
    rw [hst]
    simp [hfocus, hfind]
  constructor
  · intro hlt
    rw [hadv]
    unfold advance_main
    simp only [hst]
    rw [if_pos hlt]
    refine ⟨rfl, ?_⟩
    rw [broadcast_storyline, check_auto_current_block]
    simp
  · intro hge
    rw [hadv]
    unfold advance_main
    simp only [hst]
    rw [if_neg hge]

/-- Storyline `[A, B]` with no branches, cursor at `A`. -/
def fixNoBr0 : AppState := ⟨some ⟨[fixA, fixB], 0, [], []⟩, ⟨false, 0, "main"⟩, [], [], 0⟩

/-- Storyline `[A, B]` with no branches, cursor at the last beat. -/
def fixNoBr1 : AppState := ⟨some ⟨[fixA, fixB], 1, [], []⟩, ⟨false, 0, "main"⟩, [], [], 0⟩

/-- Witness for C4 on both sides: advancing from `A` increments the
cursor and succeeds; advancing at the last beat fails and is a no-op. -/
theorem advance_without_branches_instance :
    ((advance_to_next fixNoBr0).1 = true ∧
     (advance_to_next fixNoBr0).2.1.storyline.map Storyline.current_block = some 1) ∧
    advance_to_next fixNoBr1 = (false, fixNoBr1, []) :=
  ⟨(advance_without_branches fixNoBr0 _ rfl rfl rfl).1 (by decide),
   (advance_without_branches fixNoBr1 _ rfl rfl rfl).2 (by decide)⟩

/-! ## C2: a waiting branch takes precedence over advancing main -/

theorem broadcast_playback (s : AppState) :
    (broadcast_current_block s).1.playback = (get_current_inject s).2.playback := by
  unfold broadcast_current_block
  cases h : s.storyline <;> simp [h, get_current_inject, get_current_inject_core]

/-- `get_current_inject` with focus on a live branch holding a pending
beat returns that beat and leaves the state untouched. -/
theorem get_current_branch (s : AppState) (st : Storyline) (b : Branch) (i : Inject)
    (hst : s.storyline = some st)
    (hbm : s.playback.current_source ≠ "main")
    (hfb : findBranch st.branches s.playback.current_source = some b)
    (hi : b.injects[b.current_inject]? = some i) :
    get_current_inject s = (⟨some i, "branch", some b.name⟩, s) := by
  unfold get_current_inject get_current_inject_core
  rw [hst]
  simp [hbm, hfb, hi]
  rw [← hst]

/-- C2: when focus is on main and some live branch is waiting on the
current main beat, `advance_to_next` switches focus to the first such
branch in live-set order, reports success, and leaves the storyline
(main cursor and every branch cursor) unchanged. -/
theorem advance_branch_precedence (s : AppState) (st : Storyline) (bid : String)
    (hst : s.storyline = some st)
    (hfocus : s.playback.current_source = "main")
    (hbid : bid ≠ "main")
    (hsel : st.active_branches.find?
      (pendingOnBlock st.branches ((st.blocks[st.current_block]?).map Inject.id)) = some bid) :
    (advance_to_next s).1 = true ∧
    (advance_to_next s).2.1.playback.current_source = bid ∧
    (advance_to_next s).2.1.storyline = some st := by
  have hp := List.find?_some hsel
  have hadv : advance_to_next s = (true, broadcast_current_block
      { s with playback := { s.playback with current_source := bid } }) := by
    unfold advance_to_next
    simp only [hst, hfocus]
    simp [hsel]
  obtain ⟨b, hfb, hcur⟩ :
      ∃ b, findBranch st.branches bid = some b ∧ b.current_inject < b.injects.length := by
    unfold pendingOnBlock at hp
    cases hfb : findBranch st.branches bid with
    | none => rw [hfb] at hp; exact absurd hp (by simp)
    | some b =>
      rw [hfb] at hp
      simp at hp
      exact ⟨b, rfl, hp.1⟩
  have hi : b.injects[b.current_inject]? = some b.injects[b.current_inject] :=
    List.getElem?_eq_getElem hcur
  have hgc := get_current_branch
    { s with playback := { s.playback with current_source := bid } } st b _ hst hbid hfb hi
  refine ⟨by rw [hadv], ?_, ?_⟩
  · rw [hadv]
    show (broadcast_current_block _).1.playback.current_source = bid
    rw [broadcast_playback, hgc]
  · rw [hadv]
    show (broadcast_current_block _).1.storyline = some st
    rw [broadcast_storyline]
    exact hst

/-- Manual branch on parent `A` holding one beat. -/
def fixS1 : Branch := ⟨"S1", "first", some "A", false, none, [fixR1], 0⟩

/-- Second manual branch on parent `A`. -/
def fixS2 : Branch := ⟨"S2", "second", some "A", false, none, [fixR2], 0⟩

/-- State with two live branches both waiting on the current beat. -/
def fixTwoPending : AppState :=
  ⟨some ⟨[fixA, fixB], 0, [fixS1, fixS2], ["S1", "S2"]⟩, ⟨false, 0, "main"⟩, [], [], 0⟩

/-- Witness for C2: with `S1` and `S2` both pending on `A`, the
first-registered `S1` wins and the storyline is untouched. -/
theorem advance_branch_precedence_instance :
    (advance_to_next fixTwoPending).1 = true ∧
    (advance_to_next fixTwoPending).2.1.playback.current_source = "S1" ∧
    (advance_to_next fixTwoPending).2.1.storyline
      = some ⟨[fixA, fixB], 0, [fixS1, fixS2], ["S1", "S2"]⟩ :=
  advance_branch_precedence fixTwoPending _ "S1" rfl rfl (by decide) (by decide)

/-! ## C1: merge-back correctness -/

/-- C1: advancing past the last beat of the focused live branch, when
the branch declares a merge target that resolves in the main sequence,
removes the branch from the live set, jumps the main cursor to the
target's index, returns focus to main, runs auto-trigger detection at
the new position, publishes the result and reports success — with no
assumption about where the branch's parent beat lies. -/
theorem advance_merge_to_target (s : AppState) (st : Storyline) (b : Branch) (i : Nat)
    (hst : s.storyline = some st)
    (hfocus : s.playback.current_source = b.id)
    (hbm : b.id ≠ "main")
    (hlive : st.active_branches.contains b.id = true)
    (hfind : findBranch st.branches b.id = some b)
    (hlast : b.current_inject = b.injects.length - 1)
    (hmt : truthyOS b.merge_to_inject_id = true)
    (hidx : st.blocks.findIdx?
      (fun blk => (some blk.id : Option String) == b.merge_to_inject_id) = some i) :
    advance_to_next s = (true, broadcast_current_block (check_auto_trigger_branches
      { s with
        storyline := (some { st with active_branches := st.active_branches.erase b.id,
                                     current_block := i }),
        playback := { s.playback with current_source := "main" } })) := by
  have hnc : ¬ b.current_inject < b.injects.length - 1 := by
    rw [hlast]; exact Nat.lt_irrefl _
  unfold advance_to_next
  simp only [hst, hfocus]
  rw [if_neg hbm]
  simp only [hlive, if_pos, hfind]
  rw [if_neg hnc]
  simp only [hmt, if_pos, hidx]

/-- State after entering the fixture branch (first `advance_to_next`
from the fixture start). -/
def fixAdvance1 : AppState := (advance_to_next fixState).2.1

/-- State after the second `advance_to_next` (second branch beat). -/
def fixAdvance2 : AppState := (advance_to_next fixAdvance1).2.1

/-- Witness for C1, the spec scenario: main `[A, B, C]`, auto branch
`R` on `A` with merge target `C` and beats `[R1, R2]`; the three
advances from `A` show `R1`, then `R2`, then merge to `C` at index 2
with the live set empty and focus back on main. -/
theorem advance_merge_to_target_instance :
    ((advance_to_next fixAdvance2).1 = true ∧
     (advance_to_next fixAdvance2).2.1.storyline.map Storyline.current_block = some 2 ∧
     (advance_to_next fixAdvance2).2.1.storyline.map Storyline.active_branches = some [] ∧
     (advance_to_next fixAdvance2).2.1.playback.current_source = "main" ∧
     (get_current_inject ((advance_to_next fixAdvance2).2.1)).1.inject = some fixC) ∧
    (advance_to_next fixState).1 = true ∧
    (get_current_inject fixAdvance1).1.inject = some fixR1 ∧
    (advance_to_next fixAdvance1).1 = true ∧
    (get_current_inject fixAdvance2).1.inject = some fixR2 := by
  constructor
  · rw [advance_merge_to_target fixAdvance2
      ⟨[fixA, fixB, fixC], 0, [⟨"R", "Side story", some "A", true, some "C", [fixR1, fixR2], 1⟩], ["R"]⟩
      ⟨"R", "Side story", some "A", true, some "C", [fixR1, fixR2], 1⟩
      2 (by decide) (by decide) (by decide) (by decide) (by decide) (by decide) (by decide) (by decide)]
    decide
  · decide

/-! ## C5: generation-stamped timer cancellation -/

theorem get_current_core_playing (sto : Option Storyline) (pb : Playback) :
    (get_current_inject_core sto pb).2.playing = pb.playing := by
  unfold get_current_inject_core
  cases sto
  · rfl
  · dsimp only
    split
    · rfl
    · split
      · rfl
      · split
        · rfl
        · split <;> rfl

theorem broadcast_playing (s : AppState) :
    (broadcast_current_block s).1.playback.playing = s.playback.playing := by
  rw [broadcast_playback]
  show (get_current_inject_core s.storyline s.playback).2.playing = s.playback.playing
  exact get_current_core_playing s.storyline s.playback

theorem broadcast_timer_id (s : AppState) :
    (broadcast_current_block s).1.timer_id = s.timer_id := by
  unfold broadcast_current_block
  cases h : s.storyline <;> simp [h, get_current_inject]

theorem check_auto_timer_id (s : AppState) :
    (check_auto_trigger_branches s).timer_id = s.timer_id := by
  unfold check_auto_trigger_branches
  cases h : s.storyline
  · rfl
  · rename_i st
    cases hb : st.blocks[st.current_block]? <;> simp [h, hb]

theorem start_inject_timer_id (s : AppState) :
    (start_inject_timer s).state.timer_id = s.timer_id + 1 := by
  unfold start_inject_timer get_current_inject_duration
  cases h : (get_current_inject s).1.inject <;>
    simp [h, get_current_inject_timer_id] <;> split <;> simp [get_current_inject]

/-- A jump while playing rearms the timer and therefore bumps the live
generation by exactly one. -/
theorem handle_go_to_block_timer_id (s : AppState) (idx : Int)
    (hplay : s.playback.playing = true) :
    ((handle_go_to_block s idx).1).timer_id = s.timer_id + 1 := by
  have key : ∀ t : AppState, t.timer_id = s.timer_id → t.playback.playing = true →
      (rearmIfPlaying (broadcast_current_block t)).1.timer_id = s.timer_id + 1 := by
    intro t h1 h2
    unfold rearmIfPlaying
    have hb1 : (broadcast_current_block t).1.playback.playing = true := by
      rw [broadcast_playing]; exact h2
    rw [hb1, if_pos rfl]
    show (start_inject_timer (broadcast_current_block t).1).state.timer_id = s.timer_id + 1
    rw [start_inject_timer_id, broadcast_timer_id, h1]
  unfold handle_go_to_block
  cases hsto : s.storyline with
  | none => exact key s rfl hplay
  | some st =>
    simp only
    by_cases hidx : 0 ≤ idx ∧ idx < st.blocks.length
    · rw [if_pos hidx]
      apply key
      · rw [check_auto_timer_id]
      · rw [check_auto_playback]; exact hplay
    · rw [if_neg hidx]
      exact key s rfl hplay

/-- C5: (a) a countdown tick whose captured generation does not match
the live `_timer_id` exits silently, with no state change, no message
and no advance; (b) a manual jump issued while playing bumps the live
generation past any previously armed timer, so the stale countdown's
remaining ticks can never advance state — only the timer rearmed by the
jump can; (c) two timers of distinct generations can never both drive
advancement. -/
theorem timer_generation_cancellation :
    (∀ (s : AppState) (tid : Nat), tid ≠ s.timer_id →
      inject_timer_tick tid s = (s, [], false)) ∧
    (∀ (s : AppState) (idx : Int) (tid : Nat), tid ≤ s.timer_id →
      s.playback.playing = true →
      tid ≠ ((handle_go_to_block s idx).1).timer_id ∧
      inject_timer_tick tid ((handle_go_to_block s idx).1)
        = (((handle_go_to_block s idx).1), [], false)) ∧
    (∀ (s : AppState) (t1 t2 : Nat), t1 ≠ t2 →
      inject_timer_tick t1 s = (s, [], false) ∨
      inject_timer_tick t2 s = (s, [], false)) := by
  have stale : ∀ (s : AppState) (tid : Nat), tid ≠ s.timer_id →
      inject_timer_tick tid s = (s, [], false) := by
    intro s tid h
    unfold inject_timer_tick
    rw [if_pos h]
  refine ⟨stale, ?_, ?_⟩
  · intro s idx tid hle hplay
    have hbump := handle_go_to_block_timer_id s idx hplay
    have hne : tid ≠ ((handle_go_to_block s idx).1).timer_id := by
      rw [hbump]; omega
    exact ⟨hne, stale _ tid hne⟩
  · intro s t1 t2 hne
    by_cases h1 : t1 = s.timer_id
    · right; apply stale; omega
    · left; exact stale s t1 h1

/-- A playing state with live generation 5. -/
def fixPlaying : AppState := ⟨some ⟨[fixA, fixB], 0, [], []⟩, ⟨true, 0, "main"⟩, [], [], 5⟩

/-- Witness for C5: a timer armed at generation 3 is inert after a jump
rearms the timer at a newer generation. -/
theorem timer_generation_cancellation_instance :
    3 ≠ ((handle_go_to_block fixPlaying 1).1).timer_id ∧
    inject_timer_tick 3 ((handle_go_to_block fixPlaying 1).1)
      = (((handle_go_to_block fixPlaying 1).1), [], false) :=
  timer_generation_cancellation.2.1 fixPlaying 1 3 (by decide) rfl

/-! ## Lemmas on the last-shown map and the broadcast loop -/

theorem lookupLS_setLS_self (ls : List (String × Option Inject)) (k : String) (v : Option Inject) :
    lookupLS (setLS ls k v) k = v := by
  induction ls with
  | nil => simp [setLS, lookupLS]
  | cons p rest ih =>
    unfold setLS
    by_cases h : (p.1 == k) = true
    · rw [if_pos h]; unfold lookupLS; simp
    · rw [if_neg h]; unfold lookupLS; rw [if_neg h]; exact ih

theorem lookupLS_setLS_ne (ls : List (String × Option Inject)) (k k' : String) (v : Option Inject)
    (h : k ≠ k') :
    lookupLS (setLS ls k v) k' = lookupLS ls k' := by
  induction ls with
  | nil => simp [setLS, lookupLS, h]
  | cons p rest ih =>
    unfold setLS
    by_cases hp : (p.1 == k) = true
    · rw [if_pos hp]
      unfold lookupLS
      have hpk : p.1 = k := by simpa using hp
      have h1 : (k == k') = false := by simpa using h
      have h2 : (p.1 == k') = false := by rw [hpk]; exact h1
      rw [h1, h2]
      simp
    · rw [if_neg hp]
      unfold lookupLS
      by_cases hq : (p.1 == k') = true
      · rw [hq]; simp
      · rw [if_neg hq, if_neg hq]; exact ih

/-- The broadcast loop never emits to a room outside its room list. -/
theorem broadcastRoomsFold_outside (ci : Option Inject) (mi : Nat) (stype : String)
    (rooms : List String) (ls : List (String × Option Inject)) (room : String)
    (h : room ∉ rooms) :
    msgsTo (broadcastRoomsFold ci mi stype rooms ls).2 room = [] := by
  induction rooms generalizing ls with
  | nil => simp [broadcastRoomsFold, msgsTo]
  | cons r rest ih =>
    have hr : room ≠ r := fun he => h (he ▸ List.mem_cons_self r rest)
    have hrest : room ∉ rest := fun he => h (List.mem_cons_of_mem r he)
    unfold broadcastRoomsFold
    by_cases hc : should_show_inject_to_player_type ci (roomPlayerType r) = true
    · rw [if_pos hc]
      dsimp only
      split
      · rename_i hne
        show msgsTo (Msg.playerBlockUpdate r (sanitize_block_for_player ci) mi stype ::
          (broadcastRoomsFold ci mi stype rest (setLS ls r ci)).2) room = []
        unfold msgsTo
        rw [List.filter_cons]
        have : (msgRoom (Msg.playerBlockUpdate r (sanitize_block_for_player ci) mi stype)
            == some room) = false := by
          simp [msgRoom]
          exact fun he => hr he.symm
        rw [this]
        exact ih (setLS ls r ci) hrest
      · exact ih (setLS ls r ci) hrest
    · rw [if_neg hc]
      exact ih ls hrest

/-- After the broadcast loop, a room's last-shown entry is the current
inject when the room was visited and the inject was visible to it, and
is untouched otherwise. -/
theorem broadcastRoomsFold_lookup (ci : Option Inject) (mi : Nat) (stype : String)
    (rooms : List String) (ls : List (String × Option Inject)) (room : String) :
    lookupLS (broadcastRoomsFold ci mi stype rooms ls).1 room =
      if room ∈ rooms ∧ should_show_inject_to_player_type ci (roomPlayerType room) = true
      then ci else lookupLS ls room := by
  induction rooms generalizing ls with
  | nil => simp [broadcastRoomsFold]
  | cons r rest ih =>
    unfold broadcastRoomsFold
    by_cases hc : should_show_inject_to_player_type ci (roomPlayerType r) = true
    · rw [if_pos hc]
      dsimp only
      have hfst : ∀ (q : List (String × Option Inject) × List Msg) (c : Prop) [Decidable c] (m : Msg),
          (if c then (q.1, m :: q.2) else q).1 = q.1 := by
        intro q c _ m
        split <;> rfl
      rw [hfst]
      rw [ih (setLS ls r ci)]
      by_cases hr : room = r
      · subst hr
        rw [lookupLS_setLS_self]
        by_cases hm : room ∈ rest ∧ should_show_inject_to_player_type ci (roomPlayerType room) = true
        · rw [if_pos hm, if_pos ⟨List.mem_cons_self room rest, hc⟩]
        · rw [if_neg hm, if_pos ⟨List.mem_cons_self room rest, hc⟩]
      · rw [lookupLS_setLS_ne ls r room ci (fun he => hr he.symm)]
        by_cases hm : room ∈ rest ∧ should_show_inject_to_player_type ci (roomPlayerType room) = true
        · rw [if_pos hm, if_pos ⟨List.mem_cons_of_mem r hm.1, hm.2⟩]
        · rw [if_neg hm, if_neg ?_]
          intro hx
          exact hm ⟨(List.mem_cons.mp hx.1).resolve_left hr, hx.2⟩
    · rw [if_neg hc, ih ls]
      by_cases hm : room ∈ rest ∧ should_show_inject_to_player_type ci (roomPlayerType room) = true
      · rw [if_pos hm, if_pos ⟨List.mem_cons_of_mem r hm.1, hm.2⟩]
      · rw [if_neg hm, if_neg ?_]
        intro hx
        rcases List.mem_cons.mp hx.1 with he | hin
        · exact hc (he ▸ hx.2)
        · exact hm ⟨hin, hx.2⟩

theorem msgsTo_cons_self (m : Msg) (msgs : List Msg) (room : String)
    (h : msgRoom m = some room) :
    msgsTo (m :: msgs) room = m :: msgsTo msgs room := by
  simp [msgsTo, List.filter_cons, h]

theorem msgsTo_cons_ne (m : Msg) (msgs : List Msg) (room : String)
    (h : msgRoom m ≠ some room) :
    msgsTo (m :: msgs) room = msgsTo msgs room := by
  simp [msgsTo, List.filter_cons, h]

/-- Per-room messages of the broadcast loop: a (unique) room receives
exactly one `block_update` iff it was visited, the inject is visible to
it, and the inject's id differs from the room's last-shown id. -/
theorem broadcastRoomsFold_msgs (ci : Option Inject) (mi : Nat) (stype : String)
    (rooms : List String) (ls : List (String × Option Inject)) (room : String)
    (hnd : rooms.Nodup) :
    msgsTo (broadcastRoomsFold ci mi stype rooms ls).2 room =
      (if room ∈ rooms ∧ should_show_inject_to_player_type ci (roomPlayerType room) = true ∧
          (lookupLS ls room).map Inject.id ≠ ci.map Inject.id
       then [Msg.playerBlockUpdate room (sanitize_block_for_player ci) mi stype]
       else []) := by
  induction rooms generalizing ls with
  | nil => simp [broadcastRoomsFold, msgsTo]
  | cons r rest ih =>
    have hnd' := List.nodup_cons.mp hnd
    unfold broadcastRoomsFold
    dsimp only
    by_cases hc : should_show_inject_to_player_type ci (roomPlayerType r) = true
    · rw [if_pos hc, apply_ite Prod.snd]
      dsimp only
      by_cases hr : room = r
      · subst hr
        have hout := broadcastRoomsFold_outside ci mi stype rest (setLS ls room ci) room hnd'.1
        by_cases hne : (lookupLS ls room).map Inject.id ≠ ci.map Inject.id
        · rw [if_pos hne]
          rw [msgsTo_cons_self (Msg.playerBlockUpdate room (sanitize_block_for_player ci) mi stype)
            ((broadcastRoomsFold ci mi stype rest (setLS ls room ci)).2) room rfl]
          rw [hout, if_pos ⟨List.mem_cons_self room rest, hc, hne⟩]
        · rw [if_neg hne, hout, if_neg (fun hx => hne hx.2.2)]
      · have hmne : msgRoom (Msg.playerBlockUpdate r (sanitize_block_for_player ci) mi stype)
            ≠ some room := by
          simp only [msgRoom]
          exact fun he => hr (Option.some.inj he).symm
        have hcom : msgsTo (broadcastRoomsFold ci mi stype rest (setLS ls r ci)).2 room =
            (if room ∈ r :: rest ∧ should_show_inject_to_player_type ci (roomPlayerType room) = true ∧
                (lookupLS ls room).map Inject.id ≠ ci.map Inject.id
             then [Msg.playerBlockUpdate room (sanitize_block_for_player ci) mi stype]
             else []) := by
          rw [ih (setLS ls r ci) hnd'.2, lookupLS_setLS_ne ls r room ci (fun he => hr he.symm)]
          by_cases hm : room ∈ rest ∧ should_show_inject_to_player_type ci (roomPlayerType room) = true ∧
              (lookupLS ls room).map Inject.id ≠ ci.map Inject.id
          · rw [if_pos hm, if_pos ⟨List.mem_cons_of_mem r hm.1, hm.2⟩]
          · rw [if_neg hm, if_neg ?_]
            intro hx
            exact hm ⟨(List.mem_cons.mp hx.1).resolve_left hr, hx.2⟩
        by_cases hne : (lookupLS ls r).map Inject.id ≠ ci.map Inject.id
        · rw [if_pos hne, msgsTo_cons_ne _ _ _ hmne, hcom]
        · rw [if_neg hne, hcom]
    · rw [if_neg hc, ih ls hnd'.2]
      by_cases hm : room ∈ rest ∧ should_show_inject_to_player_type ci (roomPlayerType room) = true ∧
          (lookupLS ls room).map Inject.id ≠ ci.map Inject.id
      · rw [if_pos hm, if_pos ⟨List.mem_cons_of_mem r hm.1, hm.2⟩]
      · rw [if_neg hm, if_neg ?_]
        intro hx
        rcases List.mem_cons.mp hx.1 with he | hin
        · exact hc (he ▸ hx.2.1)
        · exact hm ⟨hin, hx.2⟩

/-- If every visible room already shows the current inject, the
broadcast loop emits nothing at all. -/
theorem broadcastRoomsFold_no_new (ci : Option Inject) (mi : Nat) (stype : String)
    (rooms : List String) (ls : List (String × Option Inject))
    (h : ∀ room ∈ rooms, should_show_inject_to_player_type ci (roomPlayerType room) = true →
      lookupLS ls room = ci) :
    (broadcastRoomsFold ci mi stype rooms ls).2 = [] := by
  induction rooms generalizing ls with
  | nil => rfl
  | cons r rest ih =>
    unfold broadcastRoomsFold
    dsimp only
    by_cases hc : should_show_inject_to_player_type ci (roomPlayerType r) = true
    · rw [if_pos hc]
      rw [h r (List.mem_cons_self r rest) hc]
      rw [if_neg (by simp)]
      apply ih
      intro room hm hcond
      by_cases hr : room = r
      · subst hr; rw [lookupLS_setLS_self]
      · rw [lookupLS_setLS_ne ls r room ci (fun he => hr he.symm)]
        exact h room (List.mem_cons_of_mem r hm) hcond
    · rw [if_neg hc]
      apply ih
      intro room hm hcond
      exact h room (List.mem_cons_of_mem r hm) hcond

/-- Unfolding of `broadcast_current_block` with an active storyline. -/
theorem broadcast_spec (s : AppState) (st : Storyline)
    (hst : s.storyline = some st) :
    broadcast_current_block s =
      ({ (get_current_inject s).2 with
          last_shown := (broadcastRoomsFold (get_current_inject s).1.inject st.current_block
            (get_current_inject s).1.source_type (playerRooms s.player_types) s.last_shown).1 },
       Msg.gmBlockUpdate (get_current_inject s).1.inject st.current_block
           (get_current_inject s).1.source_type ::
         Msg.gmStateUpdate st.current_block st.active_branches
           (get_current_inject s).1.source_type ::
         (broadcastRoomsFold (get_current_inject s).1.inject st.current_block
           (get_current_inject s).1.source_type (playerRooms s.player_types) s.last_shown).2) := by
  unfold broadcast_current_block
  simp only [hst]
  rfl

/-! ## C10: change detection is by id only -/

/-- C10: for an audience segment to which the current beat is visible,
`broadcast_current_block` emits to it exactly one message iff the
current beat's id differs from the segment's last-shown id, and in
every case overwrites the segment's last-shown entry with the current
beat — so a content edit that keeps the id produces no message even
though the entry is overwritten. -/
theorem change_detection_by_id (s : AppState) (st : Storyline) (room : String)
    (hst : s.storyline = some st)
    (hnd : (playerRooms s.player_types).Nodup)
    (hmem : room ∈ playerRooms s.player_types)
    (hvis : should_show_inject_to_player_type (get_current_inject s).1.inject
      (roomPlayerType room) = true) :
    msgsTo (broadcast_current_block s).2 room =
      (if (lookupLS s.last_shown room).map Inject.id
          ≠ ((get_current_inject s).1.inject).map Inject.id
       then [Msg.playerBlockUpdate room (sanitize_block_for_player (get_current_inject s).1.inject)
               st.current_block (get_current_inject s).1.source_type]
       else []) ∧
    lookupLS ((broadcast_current_block s).1).last_shown room
      = (get_current_inject s).1.inject := by
  rw [broadcast_spec s st hst]
  constructor
  · rw [msgsTo_cons_ne _ _ _ (by simp [msgRoom]), msgsTo_cons_ne _ _ _ (by simp [msgRoom])]
    rw [broadcastRoomsFold_msgs _ _ _ _ _ _ hnd]
    by_cases hne : (lookupLS s.last_shown room).map Inject.id
        ≠ ((get_current_inject s).1.inject).map Inject.id
    · rw [if_pos ⟨hmem, hvis, hne⟩, if_pos hne]
    · rw [if_neg (fun hx => hne hx.2.2), if_neg hne]
  · show lookupLS (broadcastRoomsFold _ _ _ _ _).1 room = _
    rw [broadcastRoomsFold_lookup]
    rw [if_pos ⟨hmem, hvis⟩]

/-- Beat of id `X` as originally shown. -/
def fixOldX : Inject := ⟨"X", "", "old", none, "", 0, 0, "", []⟩

/-- Same beat after a content edit keeping the id. -/
def fixNewX : Inject := ⟨"X", "", "new", none, "", 0, 0, "", []⟩

/-- State whose generic segment last saw the old content of `X` while
the current beat is the edited `X`. -/
def fixSameId : AppState :=
  ⟨some ⟨[fixNewX], 0, [], []⟩, ⟨false, 0, "main"⟩, [("player_generic", some fixOldX)], [], 0⟩

/-- Witness for C10: a content edit under an unchanged id sends nothing
to the segment, yet its last-shown entry is overwritten with the new
content. -/
theorem change_detection_by_id_instance :
    msgsTo (broadcast_current_block fixSameId).2 "player_generic" = [] ∧
    lookupLS ((broadcast_current_block fixSameId).1).last_shown "player_generic"
      = some fixNewX := by
  have h := change_detection_by_id fixSameId ⟨[fixNewX], 0, [], []⟩ "player_generic"
    rfl (by decide) (by decide) (by decide)
  refine ⟨?_, ?_⟩
  · rw [h.1]; decide
  · rw [h.2]; decide

/-! ## C6: audience filtering by target segments -/

theorem should_show_some (i : Inject) (pt : Option String) :
    should_show_inject_to_player_type (some i) pt =
      (if i.target_player_types.isEmpty = true then true
       else if (!truthyOS pt) = true then true
       else i.target_player_types.contains (pt.getD "")) := rfl

/-- C6: a beat is visible to a named segment iff its target set is
empty or contains the segment's name, the catch-all segment sees every
beat, and pushing a beat targeted at `Alpha` while `Bravo` is connected
emits nothing to `Bravo` and leaves `Bravo`'s last-shown entry intact,
while `Alpha` and the catch-all both receive the sanitized beat. -/
theorem audience_filtering_targets :
    (∀ (i : Inject) (pt : String), truthyS pt = true →
      (should_show_inject_to_player_type (some i) (some pt) = true ↔
        i.target_player_types = [] ∨ pt ∈ i.target_player_types)) ∧
    (∀ i : Inject, should_show_inject_to_player_type (some i) none = true) ∧
    (∀ (s : AppState) (st : Storyline) (i : Inject),
      s.storyline = some st →
      (get_current_inject s).1.inject = some i →
      i.target_player_types = ["Alpha"] →
      s.player_types = ["Alpha", "Bravo"] →
      (lookupLS s.last_shown "player_Alpha").map Inject.id ≠ some i.id →
      (lookupLS s.last_shown "player_generic").map Inject.id ≠ some i.id →
      msgsTo (broadcast_current_block s).2 "player_Bravo" = [] ∧
      lookupLS ((broadcast_current_block s).1).last_shown "player_Bravo"
        = lookupLS s.last_shown "player_Bravo" ∧
      msgsTo (broadcast_current_block s).2 "player_Alpha"
        = [Msg.playerBlockUpdate "player_Alpha" (sanitize_block_for_player (some i))
            st.current_block (get_current_inject s).1.source_type] ∧
      msgsTo (broadcast_current_block s).2 "player_generic"
        = [Msg.playerBlockUpdate "player_generic" (sanitize_block_for_player (some i))
            st.current_block (get_current_inject s).1.source_type]) := by
  refine ⟨?_, ?_, ?_⟩
  · intro i pt hpt
    rw [should_show_some]
    by_cases hempty : i.target_player_types.isEmpty = true
    · have he : i.target_player_types = [] := by simpa using hempty
      simp [hempty, he]
    · rw [if_neg hempty]
      have htr : (!truthyOS (some pt)) = false := by
        show (!truthyS pt) = false
        rw [hpt]
        rfl
      rw [htr]
      simp only [Bool.false_eq_true, if_false, Option.getD_some]
      have hne : ¬ i.target_player_types = [] := by simpa using hempty
      simp [List.elem_iff, hne]
  · intro i
    rw [should_show_some]
    by_cases hempty : i.target_player_types.isEmpty = true
    · rw [if_pos hempty]
    · rw [if_neg hempty]
      rfl
  · intro s st i hst hv htg hpt ha hg
    have hnd : (playerRooms s.player_types).Nodup := by rw [hpt]; decide
    have hmB : "player_Bravo" ∈ playerRooms s.player_types := by rw [hpt]; decide
    have hmA : "player_Alpha" ∈ playerRooms s.player_types := by rw [hpt]; decide
    have hmG : "player_generic" ∈ playerRooms s.player_types := by rw [hpt]; decide
    have hsB : should_show_inject_to_player_type (get_current_inject s).1.inject
        (roomPlayerType "player_Bravo") = false := by
      rw [hv]
      simp only [should_show_inject_to_player_type, htg]
      decide
    have hsA : should_show_inject_to_player_type (get_current_inject s).1.inject
        (roomPlayerType "player_Alpha") = true := by
      rw [hv]
      simp only [should_show_inject_to_player_type, htg]
      decide
    have hsG : should_show_inject_to_player_type (get_current_inject s).1.inject
        (roomPlayerType "player_generic") = true := by
      rw [hv]
      simp only [should_show_inject_to_player_type, htg]
      decide
    have hidA : (lookupLS s.last_shown "player_Alpha").map Inject.id
        ≠ ((get_current_inject s).1.inject).map Inject.id := by
      rw [hv]; exact ha
    have hidG : (lookupLS s.last_shown "player_generic").map Inject.id
        ≠ ((get_current_inject s).1.inject).map Inject.id := by
      rw [hv]; exact hg
    refine ⟨?_, ?_, ?_, ?_⟩
    · rw [broadcast_spec s st hst]
      rw [msgsTo_cons_ne _ _ _ (by simp [msgRoom]), msgsTo_cons_ne _ _ _ (by simp [msgRoom])]
      rw [broadcastRoomsFold_msgs _ _ _ _ _ _ hnd]
      rw [if_neg (fun hx => by rw [hsB] at hx; exact absurd hx.2.1 (by simp))]
    · rw [broadcast_spec s st hst]
      show lookupLS (broadcastRoomsFold _ _ _ _ _).1 "player_Bravo" = _
      rw [broadcastRoomsFold_lookup]
      rw [if_neg (fun hx => by rw [hsB] at hx; exact absurd hx.2 (by simp))]
    · rw [broadcast_spec s st hst]
      rw [msgsTo_cons_ne _ _ _ (by simp [msgRoom]), msgsTo_cons_ne _ _ _ (by simp [msgRoom])]
      rw [broadcastRoomsFold_msgs _ _ _ _ _ _ hnd]
      rw [if_pos ⟨hmA, hsA, hidA⟩, hv]
    · rw [broadcast_spec s st hst]
      rw [msgsTo_cons_ne _ _ _ (by simp [msgRoom]), msgsTo_cons_ne _ _ _ (by simp [msgRoom])]
      rw [broadcastRoomsFold_msgs _ _ _ _ _ _ hnd]
      rw [if_pos ⟨hmG, hsG, hidG⟩, hv]

/-- Beat targeted only at segment `Alpha`. -/
def fixTargeted : Inject := ⟨"T", "", "", none, "", 0, 0, "", ["Alpha"]⟩

/-- State showing the targeted beat with `Alpha` and `Bravo` declared. -/
def fixSegState : AppState :=
  ⟨some ⟨[fixTargeted], 0, [], []⟩, ⟨false, 0, "main"⟩, [], ["Alpha", "Bravo"], 0⟩

/-- Witness for C6 at the fixture: `Bravo` receives nothing and keeps
its last-shown entry; `Alpha` and the catch-all receive the beat. -/
theorem audience_filtering_targets_instance :
    (should_show_inject_to_player_type (some fixTargeted) (some "Bravo") = true ↔
      fixTargeted.target_player_types = [] ∨ "Bravo" ∈ fixTargeted.target_player_types) ∧
    (msgsTo (broadcast_current_block fixSegState).2 "player_Bravo" = [] ∧
     lookupLS ((broadcast_current_block fixSegState).1).last_shown "player_Bravo"
       = lookupLS fixSegState.last_shown "player_Bravo" ∧
     msgsTo (broadcast_current_block fixSegState).2 "player_Alpha"
       = [Msg.playerBlockUpdate "player_Alpha" (sanitize_block_for_player (some fixTargeted)) 0
           (get_current_inject fixSegState).1.source_type] ∧
     msgsTo (broadcast_current_block fixSegState).2 "player_generic"
       = [Msg.playerBlockUpdate "player_generic" (sanitize_block_for_player (some fixTargeted)) 0
           (get_current_inject fixSegState).1.source_type]) :=
  ⟨audience_filtering_targets.1 fixTargeted "Bravo" (by decide),
   audience_filtering_targets.2.2 fixSegState ⟨[fixTargeted], 0, [], []⟩ fixTargeted
     rfl (by decide) rfl rfl (by decide) (by decide)⟩

/-! ## C7: publishing twice emits nothing new to the audience -/

theorem broadcast_player_types (s : AppState) :
    (broadcast_current_block s).1.player_types = s.player_types := by
  unfold broadcast_current_block
  cases h : s.storyline <;> simp [h, get_current_inject]

/-- Core-level version of `get_current_branch`. -/
theorem core_branch_view (st : Storyline) (pb : Playback) (b : Branch) (i : Inject)
    (hcs : pb.current_source ≠ "main")
    (hfb : findBranch st.branches pb.current_source = some b)
    (hinj : b.injects[b.current_inject]? = some i) :
    get_current_inject_core (some st) pb = (⟨some i, "branch", some b.name⟩, pb) := by
  unfold get_current_inject_core
  simp [hcs, hfb, hinj]

/-- When the fallback scan selects a target, re-reading the state with
focus moved to it reproduces exactly that view, without mutation. -/
theorem core_fallback_target (st : Storyline) (pb : Playback) (t : String × Inject × String)
    (hids : ∀ b ∈ st.branches, b.id ≠ "main")
    (hfs : st.active_branches.findSome? (fun bid =>
        match findBranch st.branches bid with
        | some b => (b.injects[b.current_inject]?).map (fun i => (bid, i, b.name))
        | none => none) = some t) :
    get_current_inject_core (some st) { pb with current_source := t.1 }
      = (⟨some t.2.1, "branch", some t.2.2⟩, { pb with current_source := t.1 }) := by
  obtain ⟨bid, hmem, hF⟩ := List.exists_of_findSome?_eq_some hfs
  cases hfb : findBranch st.branches bid with
  | none => rw [hfb] at hF; exact absurd hF (by simp)
  | some b =>
    rw [hfb] at hF
    dsimp only at hF
    cases hinj : b.injects[b.current_inject]? with
    | none => rw [hinj] at hF; exact absurd hF (by simp)
    | some i =>
      rw [hinj] at hF
      have ht : t = (bid, i, b.name) := by
        have := hF
        simp at this
        exact this.symm
      subst ht
      have hbid : b.id = bid := by simpa using List.find?_some hfb
      have hmain : bid ≠ "main" := hbid ▸ hids b (List.mem_of_find?_eq_some hfb)
      exact core_branch_view st _ b i hmain hfb hinj

/-- `get_current_inject_core` is idempotent (its fallback rewrites of
`current_source` converge in one step), provided no branch uses the
reserved id `"main"`. -/
theorem get_current_core_idem (sto : Option Storyline) (pb : Playback)
    (hids : ∀ st, sto = some st → ∀ b ∈ st.branches, b.id ≠ "main") :
    get_current_inject_core sto (get_current_inject_core sto pb).2
      = get_current_inject_core sto pb := by
  cases sto with
  | none => rfl
  | some st =>
    have hids' := hids st rfl
    by_cases hcs : pb.current_source = "main"
    · cases hblk : st.blocks[st.current_block]? with
      | some i =>
        have h1 : get_current_inject_core (some st) pb = (⟨some i, "main", none⟩, pb) := by
          unfold get_current_inject_core
          simp [hcs, hblk]
        rw [h1]
        exact h1
      | none =>
        cases hfs : st.active_branches.findSome? (fun bid =>
            match findBranch st.branches bid with
            | some b => (b.injects[b.current_inject]?).map (fun i => (bid, i, b.name))
            | none => none) with
        | some t =>
          have h1 : get_current_inject_core (some st) pb
              = (⟨some t.2.1, "branch", some t.2.2⟩, { pb with current_source := t.1 }) := by
            unfold get_current_inject_core
            simp [hcs, hblk, hfs]
          rw [h1]
          exact core_fallback_target st pb t hids' hfs
        | none =>
          have h1 : get_current_inject_core (some st) pb
              = (⟨none, "main", none⟩, { pb with current_source := "main" }) := by
            unfold get_current_inject_core
            simp [hcs, hblk, hfs]
          rw [h1]
          unfold get_current_inject_core
          simp [hblk, hfs]
    · cases hfb : findBranch st.branches pb.current_source with
      | some b =>
        cases hinj : b.injects[b.current_inject]? with
        | some i =>
          have h1 := core_branch_view st pb b i hcs hfb hinj
          rw [h1]
          exact h1
        | none =>
          cases hfs : st.active_branches.findSome? (fun bid =>
              match findBranch st.branches bid with
              | some b => (b.injects[b.current_inject]?).map (fun i => (bid, i, b.name))
              | none => none) with
          | some t =>
            have h1 : get_current_inject_core (some st) pb
                = (⟨some t.2.1, "branch", some t.2.2⟩, { pb with current_source := t.1 }) := by
              unfold get_current_inject_core
              simp [hcs, hfb, hinj, hfs]
            rw [h1]
            exact core_fallback_target st pb t hids' hfs
          | none =>
            cases hblk : st.blocks[st.current_block]? with
            | some j =>
              have h1 : get_current_inject_core (some st) pb
                  = (⟨some j, "main", none⟩, { pb with current_source := "main" }) := by
                unfold get_current_inject_core
                simp [hcs, hfb, hinj, hfs, hblk]
              rw [h1]
              unfold get_current_inject_core
              simp [hblk]
            | none =>
              have h1 : get_current_inject_core (some st) pb
                  = (⟨none, "main", none⟩, { pb with current_source := "main" }) := by
                unfold get_current_inject_core
                simp [hcs, hfb, hinj, hfs, hblk]
              rw [h1]
              unfold get_current_inject_core
              simp [hblk, hfs]
      | none =>
        cases hfs : st.active_branches.findSome? (fun bid =>
            match findBranch st.branches bid with
            | some b => (b.injects[b.current_inject]?).map (fun i => (bid, i, b.name))
            | none => none) with
        | some t =>
          have h1 : get_current_inject_core (some st) pb
              = (⟨some t.2.1, "branch", some t.2.2⟩, { pb with current_source := t.1 }) := by
            unfold get_current_inject_core
            simp [hcs, hfb, hfs]
          rw [h1]
          exact core_fallback_target st pb t hids' hfs
        | none =>
          cases hblk : st.blocks[st.current_block]? with
          | some j =>
            have h1 : get_current_inject_core (some st) pb
                = (⟨some j, "main", none⟩, { pb with current_source := "main" }) := by
              unfold get_current_inject_core
              simp [hcs, hfb, hfs, hblk]
            rw [h1]
            unfold get_current_inject_core
            simp [hblk]
          | none =>
            have h1 : get_current_inject_core (some st) pb
                = (⟨none, "main", none⟩, { pb with current_source := "main" }) := by
              unfold get_current_inject_core
              simp [hcs, hfb, hfs, hblk]
            rw [h1]
            unfold get_current_inject_core
            simp [hblk, hfs]

theorem broadcast_none_spec (s : AppState) (h : s.storyline = none) :
    broadcast_current_block s = (s, [Msg.emptyBlockUpdate]) := by
  unfold broadcast_current_block
  simp [h]

/-- State with no active storyline but a connected `Alpha` segment. -/
def fixNoStory : AppState := ⟨none, ⟨false, 0, "main"⟩, [], ["Alpha"], 0⟩

/-- Counterexample to C7 as stated: with no active storyline (reachable
state — e.g. any jump before a storyline is activated rebroadcasts),
the second of two back-to-back publishes emits the room-less
empty-state `block_update` again, and that broadcast is delivered to
every audience segment — publishing twice is not free of audience
traffic. -/
theorem publish_no_storyline_rebroadcasts :
    ((broadcast_current_block (broadcast_current_block fixNoStory).1).2).any
      (fun m => reachesRoom m "player_Alpha") = true ∧
    ((broadcast_current_block (broadcast_current_block fixNoStory).1).2).any
      (fun m => reachesRoom m "player_generic") = true := by decide

/-- C7 (amended): with an active storyline, publishing twice in a row
with no intervening state change delivers zero messages of the second
publish to any audience room: each room's candidate id now equals its
last-shown id, so the loop sends nothing, and the remaining
moderator-room messages reach no audience room.  (With no active
storyline the code instead rebroadcasts an empty state to all clients
each time — see the counterexample.) -/
theorem broadcast_idempotent_audience (s : AppState) (st : Storyline) (room : String)
    (hst : s.storyline = some st)
    (hids : ∀ b ∈ st.branches, b.id ≠ "main") :
    ((broadcast_current_block (broadcast_current_block s).1).2).all
      (fun m => !(reachesRoom m room)) = true := by
  have hids' : ∀ st', s.storyline = some st' → ∀ b ∈ st'.branches, b.id ≠ "main" := by
    intro st' h'
    rw [hst] at h'
    rw [← Option.some.inj h']
    exact hids
  have hsto2 : (broadcast_current_block s).1.storyline = some st := by
    rw [broadcast_storyline]; exact hst
  have hv2a : (get_current_inject (broadcast_current_block s).1).1
      = (get_current_inject s).1 := by
    show (get_current_inject_core (broadcast_current_block s).1.storyline
      (broadcast_current_block s).1.playback).1
      = (get_current_inject_core s.storyline s.playback).1
    rw [broadcast_storyline, broadcast_playback]
    show (get_current_inject_core s.storyline
      ((get_current_inject_core s.storyline s.playback).2)).1 = _
    rw [get_current_core_idem s.storyline s.playback hids']
  have hpt2 := broadcast_player_types s
  have hls2 : (broadcast_current_block s).1.last_shown
      = (broadcastRoomsFold (get_current_inject s).1.inject st.current_block
          (get_current_inject s).1.source_type (playerRooms s.player_types) s.last_shown).1 := by
    rw [broadcast_spec s st hst]
  rw [broadcast_spec (broadcast_current_block s).1 st hsto2]
  have hfold2 : (broadcastRoomsFold (get_current_inject (broadcast_current_block s).1).1.inject
      st.current_block (get_current_inject (broadcast_current_block s).1).1.source_type
      (playerRooms (broadcast_current_block s).1.player_types)
      (broadcast_current_block s).1.last_shown).2 = [] := by
    rw [hv2a, hpt2, hls2]
    apply broadcastRoomsFold_no_new
    intro room' hm hcond
    rw [broadcastRoomsFold_lookup]
    rw [if_pos ⟨hm, hcond⟩]
  rw [hfold2]
  rfl

/-- Witness for the amended C7 at the targeted-beat fixture state, for
both a declared segment's room and the catch-all room. -/
theorem broadcast_idempotent_audience_instance :
    ((broadcast_current_block (broadcast_current_block fixSegState).1).2).all
      (fun m => !(reachesRoom m "player_Alpha")) = true ∧
    ((broadcast_current_block (broadcast_current_block fixSegState).1).2).all
      (fun m => !(reachesRoom m "player_generic")) = true :=
  ⟨broadcast_idempotent_audience fixSegState ⟨[fixTargeted], 0, [], []⟩ "player_Alpha" rfl
     (fun b hb => (List.not_mem_nil b hb).elim),
   broadcast_idempotent_audience fixSegState ⟨[fixTargeted], 0, [], []⟩ "player_generic" rfl
     (fun b hb => (List.not_mem_nil b hb).elim)⟩

/-! ## C8: the auto-trigger live-set invariant -/

/-- The structural data the auto-trigger invariant depends on: a
branch's parent beat and auto-trigger flag. -/
def branchShape (b : Branch) : Option String × Bool := (b.parent_inject_id, b.auto_trigger)

/-- No parent beat has a second branch alongside an auto-trigger one
(the shape of the invariant enforced by the authoring layer in
`create_branch` / branch update). -/
def shapeInv (shapes : List (Option String × Bool)) : Prop :=
  ∀ i j : Fin shapes.length, i ≠ j →
    (shapes.get i).2 = true → (shapes.get j).1 ≠ (shapes.get i).1

/-- Structural invariant on a branch list. -/
def structuralInv (bs : List Branch) : Prop := shapeInv (bs.map branchShape)

/-- Live-set invariant of the spec: no parent has two live auto-trigger
branches, and a parent with a live auto-trigger branch has no other
branch simultaneously live. -/
def liveAutoInv (st : Storyline) : Prop :=
  ∀ i j : Fin st.branches.length, i ≠ j →
    st.active_branches.contains (st.branches.get i).id = true →
    st.active_branches.contains (st.branches.get j).id = true →
    (st.branches.get i).auto_trigger = true →
    (st.branches.get j).parent_inject_id ≠ (st.branches.get i).parent_inject_id

theorem liveAutoInv_of_structural (st : Storyline) (h : structuralInv st.branches) :
    liveAutoInv st := by
  intro i j hij hli hlj hauto
  have hi' : (i : Nat) < (st.branches.map branchShape).length := by simpa using i.2
  have hj' : (j : Nat) < (st.branches.map branchShape).length := by simpa using j.2
  have hne : (⟨i, hi'⟩ : Fin (st.branches.map branchShape).length) ≠ ⟨j, hj'⟩ := by
    intro hx
    apply hij
    apply Fin.ext
    simpa using congrArg Fin.val hx
  have hget : ∀ (k : Fin st.branches.length) (hk : (k : Nat) < (st.branches.map branchShape).length),
      (st.branches.map branchShape).get ⟨k, hk⟩ = branchShape (st.branches.get k) := by
    intro k hk
    simp [List.get_eq_getElem, List.getElem_map]
  have hx := h ⟨i, hi'⟩ ⟨j, hj'⟩ hne
  rw [hget i hi', hget j hj'] at hx
  exact hx hauto

/-- The branch shapes of a state's storyline (if any). -/
def stateShape (s : AppState) : Option (List (Option String × Bool)) :=
  s.storyline.map (fun st => st.branches.map branchShape)

theorem shape_setBranchCursorFirst (bs : List Branch) (bid : String) (v : Nat) :
    (setBranchCursorFirst bs bid v).map branchShape = bs.map branchShape := by
  induction bs with
  | nil => rfl
  | cons b rest ih =>
    unfold setBranchCursorFirst
    by_cases h : (b.id == bid) = true
    · rw [if_pos h]; simp [branchShape]
    · rw [if_neg h]; simp only [List.map_cons, ih]

theorem shape_autoTriggerFold (cbid : String) (bs : List Branch) (act : List String) :
    ((autoTriggerFold cbid bs act).1).map branchShape = bs.map branchShape := by
  induction bs generalizing act with
  | nil => rfl
  | cons b rest ih =>
    unfold autoTriggerFold
    by_cases h : (b.auto_trigger && (b.parent_inject_id == some cbid)
        && !(act.contains b.id) && !b.injects.isEmpty) = true
    · rw [if_pos h]
      simp only [List.map_cons, ih]
      rfl
    · rw [if_neg h]
      simp only [List.map_cons, ih]

theorem shape_resetAll (bs : List Branch) :
    (bs.map (fun b => { b with current_inject := 0 })).map branchShape = bs.map branchShape := by
  induction bs with
  | nil => rfl
  | cons b rest ih =>
    simp only [List.map_cons, ih]
    rfl

theorem stateShape_check_auto (s : AppState) :
    stateShape (check_auto_trigger_branches s) = stateShape s := by
  unfold check_auto_trigger_branches
  cases h : s.storyline
  · rfl
  · rename_i st
    cases hb : st.blocks[st.current_block]?
    · simp [h, hb]
    · simp [stateShape, h, hb, shape_autoTriggerFold]

theorem stateShape_broadcast (s : AppState) :
    stateShape (broadcast_current_block s).1 = stateShape s := by
  unfold stateShape
  rw [broadcast_storyline]

theorem gm_only_storyline (s : AppState) :
    (broadcast_state_to_gm_only s).1.storyline = s.storyline := by
  unfold broadcast_state_to_gm_only
  cases h : s.storyline <;> simp [h, get_current_inject]

theorem start_inject_timer_storyline (s : AppState) :
    (start_inject_timer s).state.storyline = s.storyline := by
  unfold start_inject_timer get_current_inject_duration get_current_inject
  dsimp only
  cases hd : (get_current_inject_core s.storyline s.playback).1.inject <;>
    simp [hd] <;> split <;> rfl

theorem rearm_storyline (p : AppState × List Msg) :
    (rearmIfPlaying p).1.storyline = p.1.storyline := by
  unfold rearmIfPlaying
  split
  · exact start_inject_timer_storyline p.1
  · rfl

theorem stateShape_rearm_broadcast (t : AppState) :
    stateShape (rearmIfPlaying (broadcast_current_block t)).1 = stateShape t := by
  unfold stateShape
  rw [rearm_storyline, broadcast_storyline]

theorem stateShape_advance_main (s : AppState) :
    stateShape (advance_main s).2.1 = stateShape s := by
  unfold advance_main
  cases h : s.storyline with
  | none => rfl
  | some st =>
    dsimp only
    split
    · rw [stateShape_broadcast, stateShape_check_auto]
      simp [stateShape, h]
    · rfl

theorem stateShape_advance_to_next (s : AppState) :
    stateShape (advance_to_next s).2.1 = stateShape s := by
  unfold advance_to_next
  cases h : s.storyline with
  | none => rfl
  | some st =>
    dsimp only
    split
    · split
      · rw [stateShape_broadcast]
        simp [stateShape, h]
      · exact stateShape_advance_main s
    · split
      · split
        · split
          · rw [stateShape_broadcast]
            simp [stateShape, h, shape_setBranchCursorFirst]
          · split
            · rw [stateShape_broadcast, stateShape_check_auto]
              simp [stateShape, h]
            · split
              · rw [stateShape_broadcast]
                simp [stateShape, h]
              · rw [stateShape_advance_main]
                simp [stateShape, h]
        · exact stateShape_advance_main s
      · rw [stateShape_advance_main]
        simp [stateShape, h]

theorem stateShape_handle_next (s : AppState) :
    stateShape (handle_next_block s).1 = stateShape s := by
  unfold handle_next_block
  dsimp only
  split
  · split
    · show stateShape (start_inject_timer (advance_to_next s).2.1).state = stateShape s
      unfold stateShape
      rw [start_inject_timer_storyline]
      exact stateShape_advance_to_next s
    · exact stateShape_advance_to_next s
  · exact stateShape_advance_to_next s

theorem stateShape_handle_previous (s : AppState) :
    stateShape (handle_previous_block s).1 = stateShape s := by
  unfold handle_previous_block
  rw [stateShape_rearm_broadcast]
  cases h : s.storyline with
  | none => rfl
  | some st =>
    dsimp only
    split
    · simp [stateShape, h]
    · rfl

theorem stateShape_handle_go_to_block (s : AppState) (idx : Int) :
    stateShape (handle_go_to_block s idx).1 = stateShape s := by
  unfold handle_go_to_block
  rw [stateShape_rearm_broadcast]
  cases h : s.storyline with
  | none => rfl
  | some st =>
    dsimp only
    split
    · rw [stateShape_check_auto]
      split
      · simp only [stateShape, h, Option.map_some']
        rw [shape_resetAll]
      · simp [stateShape, h]
    · rfl

theorem stateShape_handle_go_to_branch (s : AppState) (bid : Option String) (idx : Int) :
    stateShape (handle_go_to_branch_inject s bid idx).1 = stateShape s := by
  unfold handle_go_to_branch_inject
  rw [stateShape_rearm_broadcast]
  cases h : s.storyline with
  | none => rfl
  | some st =>
    dsimp only
    split
    · split
      · simp [stateShape, h, shape_setBranchCursorFirst]
      · rfl
    · rfl

theorem stateShape_handle_toggle (s : AppState) (p : Bool) :
    stateShape (handle_toggle_playback s p).1 = stateShape s := by
  unfold handle_toggle_playback
  cases h : s.storyline with
  | none => rfl
  | some st =>
    dsimp only
    split
    · show stateShape (start_inject_timer (check_auto_trigger_branches _)).state = stateShape s
      unfold stateShape
      rw [start_inject_timer_storyline]
      show stateShape (check_auto_trigger_branches _) = stateShape s
      rw [stateShape_check_auto]
      simp [stateShape, h]
    · simp [stateShape, h]

theorem stateShape_handle_activate (s : AppState) (bid : Option String) :
    stateShape (handle_activate_branch s bid).1 = stateShape s := by
  unfold handle_activate_branch
  show stateShape (broadcast_state_to_gm_only _).1 = stateShape s
  unfold stateShape
  rw [gm_only_storyline]
  cases h : s.storyline with
  | none => cases bid <;> simp [h]
  | some st =>
    cases bid with
    | none => simp [h]
    | some b =>
      dsimp only
      split
      · split
        · split
          · rw [h]
          · simp [h, shape_setBranchCursorFirst]
        · rw [h]
      · rw [h]

theorem stateShape_handle_deactivate (s : AppState) (bid : Option String) :
    stateShape (handle_deactivate_branch s bid).1 = stateShape s := by
  unfold handle_deactivate_branch
  cases h : s.storyline with
  | none => cases bid <;> simp [stateShape, h]
  | some st =>
    cases bid with
    | none => simp [stateShape, h]
    | some b =>
      dsimp only
      split
      · show stateShape (broadcast_state_to_gm_only _).1 = stateShape s
        unfold stateShape
        rw [gm_only_storyline]
        simp [h]
      · simp [stateShape, h]

theorem stateShape_applyCommand (c : Command) (s : AppState) :
    stateShape (applyCommand c s).1 = stateShape s := by
  cases c with
  | nextBlock => exact stateShape_handle_next s
  | previousBlock => exact stateShape_handle_previous s
  | goToBlock i => exact stateShape_handle_go_to_block s i
  | goToBranchInject b i => exact stateShape_handle_go_to_branch s b i
  | togglePlayback p => exact stateShape_handle_toggle s p
  | activateBranch b => exact stateShape_handle_activate s b
  | deactivateBranch b => exact stateShape_handle_deactivate s b

/-- C8: assuming the authoring-layer structural invariant (a parent
beat with an auto-trigger branch has no other branch attached), every
playback command preserves that structural invariant, and afterwards
the live-branch set satisfies the auto-trigger invariant: no parent has
more than one live auto-trigger branch, and a parent with a live
auto-trigger branch has no other branch simultaneously live. -/
theorem live_auto_trigger_invariant (c : Command) (s : AppState) (st st' : Storyline)
    (hst : s.storyline = some st)
    (hinv : structuralInv st.branches)
    (hst' : ((applyCommand c s).1).storyline = some st') :
    structuralInv st'.branches ∧ liveAutoInv st' := by
  have hstruct : structuralInv st'.branches := by
    have hsh := stateShape_applyCommand c s
    rw [stateShape, stateShape, hst, hst'] at hsh
    simp only [Option.map_some'] at hsh
    unfold structuralInv
    rw [Option.some.inj hsh]
    exact hinv
  exact ⟨hstruct, liveAutoInv_of_structural st' hstruct⟩

instance (shapes : List (Option String × Bool)) : Decidable (shapeInv shapes) := by
  unfold shapeInv
  infer_instance

instance (bs : List Branch) : Decidable (structuralInv bs) := by
  unfold structuralInv
  infer_instance

instance (st : Storyline) : Decidable (liveAutoInv st) := by
  unfold liveAutoInv
  infer_instance

/-- Witness for C8 at the fixture (auto branch `R` live on parent
`A`), under two different commands: advancing (which switches focus to
`R`) and deactivating `R` (which shrinks the live set). -/
theorem live_auto_trigger_invariant_instance :
    (structuralInv (⟨[fixA, fixB, fixC], 0, [fixR], ["R"]⟩ : Storyline).branches ∧
      liveAutoInv ⟨[fixA, fixB, fixC], 0, [fixR], ["R"]⟩) ∧
    (structuralInv (⟨[fixA, fixB, fixC], 0, [fixR], []⟩ : Storyline).branches ∧
      liveAutoInv ⟨[fixA, fixB, fixC], 0, [fixR], []⟩) :=
  ⟨live_auto_trigger_invariant Command.nextBlock fixState
     ⟨[fixA, fixB, fixC], 0, [fixR], ["R"]⟩ ⟨[fixA, fixB, fixC], 0, [fixR], ["R"]⟩
     rfl (by decide) (by decide),
   live_auto_trigger_invariant (Command.deactivateBranch (some "R")) fixState
     ⟨[fixA, fixB, fixC], 0, [fixR], ["R"]⟩ ⟨[fixA, fixB, fixC], 0, [fixR], []⟩
     rfl (by decide) (by decide)⟩

/-! ## C9: unresolvable ids — no-op state, but publishes happen -/

theorem gm_only_spec (s : AppState) (st : Storyline) (hst : s.storyline = some st) :
    broadcast_state_to_gm_only s = ((get_current_inject s).2,
      [Msg.gmBlockUpdate (get_current_inject s).1.inject st.current_block
         (get_current_inject s).1.source_type,
       Msg.gmStateUpdate st.current_block st.active_branches
         (get_current_inject s).1.source_type]) := by
  unfold broadcast_state_to_gm_only
  simp only [hst]

theorem rearm_msgs_ne (p : AppState × List Msg) (h : p.2 ≠ []) :
    (rearmIfPlaying p).2 ≠ [] := by
  unfold rearmIfPlaying
  split
  · simp [h]
  · exact h

/-- Storyline with a single beat, used for the unresolvable-id cases. -/
def fixOneBlock : AppState := ⟨some ⟨[fixA], 0, [], []⟩, ⟨false, 0, "main"⟩, [], [], 0⟩

theorem rearm_msgs_mem (p : AppState × List Msg) (m : Msg) (h : m ∈ p.2) :
    m ∈ (rearmIfPlaying p).2 := by
  unfold rearmIfPlaying
  split
  · exact List.mem_append_left _ h
  · exact h

/-- Counterexample to C9 as stated: unresolvable references do not stop
the handlers from publishing, and no failure is reported anywhere.
Jumping to the out-of-range index 5 leaves the storyline unchanged yet
emits exactly what an idle republish of the unchanged state emits (so
nothing distinguishes the failure); with no active storyline,
`previous_block` broadcasts an empty state delivered to every client;
`go_to_branch_inject` with an unknown branch id and `activate_branch`
with an unknown branch id also publish. -/
theorem unresolved_id_still_publishes :
    ((handle_go_to_block fixOneBlock 5).1.storyline = fixOneBlock.storyline ∧
     (handle_go_to_block fixOneBlock 5).2 ≠ [] ∧
     (handle_go_to_block fixOneBlock 5).2 = (broadcast_current_block fixOneBlock).2) ∧
    ((handle_previous_block fixNoStory).1.storyline = none ∧
     Msg.emptyBlockUpdate ∈ (handle_previous_block fixNoStory).2) ∧
    (handle_go_to_branch_inject fixOneBlock (some "ghost") 0).2 ≠ [] ∧
    (handle_activate_branch fixOneBlock (some "ghost")).2 ≠ [] := by decide

/-- C9 (amended): every command referencing an id that does not resolve
— missing storyline, unknown branch id, or out-of-range main or branch
index — never raises (all handlers are total) and leaves the storyline
(sequence, cursor, branches, live-branch set) exactly as it was.
`next_block`, `activate_branch` and `deactivate_branch` with no active
storyline, and `deactivate_branch` on a branch that is not live, really
are silent no-ops, as the claim says.  But no handler reports failure
(`toggle_playback` alone emits an explicit error, to the moderator,
when no storyline is active), and the remaining handlers still publish:
`previous_block`, `go_to_block` and `go_to_branch_inject` always
rebroadcast — with no active storyline that is the empty-state
broadcast delivered to all clients — and `activate_branch` re-sends
exactly the two moderator state messages. -/
theorem unresolved_reference_behavior :
    (∀ (s : AppState) (bid : Option String) (idx : Int) (p : Bool), s.storyline = none →
      handle_next_block s = (s, []) ∧
      handle_activate_branch s bid = (s, []) ∧
      handle_deactivate_branch s bid = (s, []) ∧
      handle_toggle_playback s p = (s, [Msg.playbackError "gm"]) ∧
      (handle_previous_block s).1.storyline = none ∧
      Msg.emptyBlockUpdate ∈ (handle_previous_block s).2 ∧
      (handle_go_to_block s idx).1.storyline = none ∧
      Msg.emptyBlockUpdate ∈ (handle_go_to_block s idx).2 ∧
      (handle_go_to_branch_inject s bid idx).1.storyline = none ∧
      Msg.emptyBlockUpdate ∈ (handle_go_to_branch_inject s bid idx).2) ∧
    (∀ (s : AppState) (st : Storyline) (idx : Int) (bid : String), s.storyline = some st →
      (¬ (0 ≤ idx ∧ idx < st.blocks.length) →
        (handle_go_to_block s idx).1.storyline = some st ∧
        (handle_go_to_block s idx).2 ≠ []) ∧
      (truthyS bid = true → findBranch st.branches bid = none →
        (handle_activate_branch s (some bid)).1.storyline = some st ∧
        (handle_activate_branch s (some bid)).2
          = [Msg.gmBlockUpdate (get_current_inject s).1.inject st.current_block
               (get_current_inject s).1.source_type,
             Msg.gmStateUpdate st.current_block st.active_branches
               (get_current_inject s).1.source_type]) ∧
      (st.active_branches.contains bid = false →
        handle_deactivate_branch s (some bid) = (s, [])) ∧
      (st.branches.find? (fun b => (some b.id : Option String) == (some bid : Option String))
          = none →
        (handle_go_to_branch_inject s (some bid) idx).1.storyline = some st ∧
        (handle_go_to_branch_inject s (some bid) idx).2 ≠ []) ∧
      (∀ br, st.branches.find? (fun b => (some b.id : Option String) == (some bid : Option String))
          = some br →
        ¬ (0 ≤ idx ∧ idx < br.injects.length) →
        (handle_go_to_branch_inject s (some bid) idx).1.storyline = some st ∧
        (handle_go_to_branch_inject s (some bid) idx).2 ≠ [])) := by
  constructor
  · intro s bid idx p h
    have hadv : advance_to_next s = (false, s, []) := by
      unfold advance_to_next
      simp [h]
    have hbn := broadcast_none_spec s h
    have hprev : handle_previous_block s = rearmIfPlaying (broadcast_current_block s) := by
      unfold handle_previous_block
      simp only [h]
    have hgob : handle_go_to_block s idx = rearmIfPlaying (broadcast_current_block s) := by
      unfold handle_go_to_block
      simp only [h]
    have hgobr : handle_go_to_branch_inject s bid idx
        = rearmIfPlaying (broadcast_current_block s) := by
      unfold handle_go_to_branch_inject
      simp only [h]
    have hmem : Msg.emptyBlockUpdate ∈ (rearmIfPlaying (broadcast_current_block s)).2 := by
      apply rearm_msgs_mem
      rw [hbn]
      exact List.mem_cons_self _ _
    have hsto : (rearmIfPlaying (broadcast_current_block s)).1.storyline = none := by
      rw [rearm_storyline, broadcast_storyline, h]
    refine ⟨?_, ?_, ?_, ?_, ?_, ?_, ?_, ?_, ?_, ?_⟩
    · unfold handle_next_block
      rw [hadv]
      rfl
    · unfold handle_activate_branch broadcast_state_to_gm_only
      rcases bid with _ | b <;> simp [h]
    · unfold handle_deactivate_branch
      rcases bid with _ | b <;> simp [h]
    · unfold handle_toggle_playback
      simp [h]
    · rw [hprev]; exact hsto
    · rw [hprev]; exact hmem
    · rw [hgob]; exact hsto
    · rw [hgob]; exact hmem
    · rw [hgobr]; exact hsto
    · rw [hgobr]; exact hmem
  · intro s st idx bid hst
    refine ⟨?_, ?_, ?_, ?_, ?_⟩
    · intro hbad
      have hs1 : handle_go_to_block s idx = rearmIfPlaying (broadcast_current_block s) := by
        unfold handle_go_to_block
        simp only [hst]
        rw [if_neg hbad]
      rw [hs1]
      constructor
      · rw [rearm_storyline, broadcast_storyline, hst]
      · apply rearm_msgs_ne
        rw [broadcast_spec s st hst]
        simp
    · intro htr hfb
      have hs1 : handle_activate_branch s (some bid) = broadcast_state_to_gm_only s := by
        unfold handle_activate_branch
        simp only [hst]
        rw [if_pos htr]
        simp only [hfb]
      rw [hs1, gm_only_spec s st hst]
      constructor
      · show (get_current_inject s).2.storyline = some st
        rw [get_current_inject_storyline, hst]
      · rfl
    · intro hcont
      have hcont' : bid ∉ st.active_branches := by simpa using hcont
      unfold handle_deactivate_branch
      simp only [hst]
      simp [hcont']
    · intro hfind
      have hs1 : handle_go_to_branch_inject s (some bid) idx
          = rearmIfPlaying (broadcast_current_block s) := by
        unfold handle_go_to_branch_inject
        simp only [hst, hfind]
      rw [hs1]
      exact ⟨by rw [rearm_storyline, broadcast_storyline, hst],
        rearm_msgs_ne _ (by rw [broadcast_spec s st hst]; simp)⟩
    · intro br hfind hbad
      have hs1 : handle_go_to_branch_inject s (some bid) idx
          = rearmIfPlaying (broadcast_current_block s) := by
        unfold handle_go_to_branch_inject
        simp only [hst, hfind]
        rw [if_neg hbad]
      rw [hs1]
      exact ⟨by rw [rearm_storyline, broadcast_storyline, hst],
        rearm_msgs_ne _ (by rw [broadcast_spec s st hst]; simp)⟩

/-- Witness for the amended C9: the no-storyline cases at `fixNoStory`,
the out-of-range index 5 / unknown branch id `"ghost"` at the one-beat
fixture, and the out-of-range branch index 7 on the real branch `R`. -/
theorem unresolved_reference_behavior_instance :
    (handle_next_block fixNoStory = (fixNoStory, []) ∧
     handle_activate_branch fixNoStory (some "ghost") = (fixNoStory, []) ∧
     handle_deactivate_branch fixNoStory (some "ghost") = (fixNoStory, []) ∧
     handle_toggle_playback fixNoStory true = (fixNoStory, [Msg.playbackError "gm"]) ∧
     (handle_previous_block fixNoStory).1.storyline = none ∧
     Msg.emptyBlockUpdate ∈ (handle_previous_block fixNoStory).2 ∧
     (handle_go_to_block fixNoStory 5).1.storyline = none ∧
     Msg.emptyBlockUpdate ∈ (handle_go_to_block fixNoStory 5).2 ∧
     (handle_go_to_branch_inject fixNoStory (some "ghost") 5).1.storyline = none ∧
     Msg.emptyBlockUpdate ∈ (handle_go_to_branch_inject fixNoStory (some "ghost") 5).2) ∧
    ((handle_go_to_block fixOneBlock 5).1.storyline = some ⟨[fixA], 0, [], []⟩ ∧
     (handle_go_to_block fixOneBlock 5).2 ≠ []) ∧
    ((handle_activate_branch fixOneBlock (some "ghost")).1.storyline
        = some ⟨[fixA], 0, [], []⟩ ∧
     (handle_activate_branch fixOneBlock (some "ghost")).2
        = [Msg.gmBlockUpdate (get_current_inject fixOneBlock).1.inject 0
             (get_current_inject fixOneBlock).1.source_type,
           Msg.gmStateUpdate 0 [] (get_current_inject fixOneBlock).1.source_type]) ∧
    handle_deactivate_branch fixOneBlock (some "ghost") = (fixOneBlock, []) ∧
    ((handle_go_to_branch_inject fixOneBlock (some "ghost") 0).1.storyline
        = some ⟨[fixA], 0, [], []⟩ ∧
     (handle_go_to_branch_inject fixOneBlock (some "ghost") 0).2 ≠ []) ∧
    ((handle_go_to_branch_inject fixState (some "R") 7).1.storyline
        = some ⟨[fixA, fixB, fixC], 0, [fixR], ["R"]⟩ ∧
     (handle_go_to_branch_inject fixState (some "R") 7).2 ≠ []) :=
  ⟨unresolved_reference_behavior.1 fixNoStory (some "ghost") 5 true rfl,
   by
     have h1 := unresolved_reference_behavior.2 fixOneBlock ⟨[fixA], 0, [], []⟩ 5 "ghost" rfl
     have h2 := unresolved_reference_behavior.2 fixState
       ⟨[fixA, fixB, fixC], 0, [fixR], ["R"]⟩ 7 "R" rfl
     exact ⟨h1.1 (by decide), h1.2.1 (by decide) (by decide), h1.2.2.1 (by decide),
       h1.2.2.2.1 (by decide), h2.2.2.2.2 fixR (by decide) (by decide)⟩⟩
